import Mathlib

/-!
# Shallow embedding of `client/keystore/src/proxy.rs`

This file embeds the keystore proxy/receiver actor pair in Lean 4 and proves
properties of its behaviour.  The embedding follows the Rust source:

* `RequestMethod`, `KeystoreRequest`, `KeystoreResponse`, `PendingFuture`,
  `PendingCall` mirror the data types of the file;
* `KeystoreProxy.send_request`, `sign_with`, `has_keys`, `insert_unknown`
  mirror the proxy methods;
* `KeystoreReceiver.process_request`, `KeystoreReceiver.poll_future` and the
  `Future` implementation `KeystoreReceiver.poll` mirror the receiver actor;
* the bounded `futures::channel::mpsc` channel of size `CHANNEL_SIZE` and the
  `futures::channel::oneshot` response channels are modelled after the
  documented semantics of the `futures` crate that the source links against.

Payload types of the external `sp_core` crate (key type ids, public keys,
messages, error values) are opaque to the proxy code, which only moves them
around; they are embedded as simple data.
-/

set_option autoImplicit false

namespace KeystoreProxyModel

/-- Byte strings (`Vec<u8>` in the source). -/
abbrev Bytes := List Nat

/-- Opaque key-type identifier (`sp_core::crypto::KeyTypeId`). -/
abbrev KeyTypeId := Nat

/-- Opaque crypto-type / public-key pair (`sp_core::crypto::CryptoTypePublicPair`).
The proxy code never inspects it, only clones and forwards it. -/
structure CryptoTypePublicPair where
  cryptoType : Nat
  publicKey : Bytes
deriving DecidableEq

/-- Opaque store error (`sp_core::traits::BareCryptoStoreError`); the proxy code
only forwards it inside responses. -/
abbrev BareCryptoStoreError := Nat

/-- `enum RequestMethod` of the source (proxy.rs lines 31–35). -/
inductive RequestMethod
  | SignWith (id : KeyTypeId) (key : CryptoTypePublicPair) (msg : Bytes)
  | HasKeys (keys : List (Bytes × KeyTypeId))
  | InsertUnknown (keyType : KeyTypeId) (suri : String) (pubkey : Bytes)
deriving DecidableEq

/-- `enum KeystoreResponse` of the source (proxy.rs lines 42–46). -/
inductive KeystoreResponse
  | SignWith (r : Except BareCryptoStoreError Bytes)
  | HasKeys (b : Bool)
  | InsertUnknown (r : Except Unit Unit)

/-- Identifier of a `oneshot` response channel.  Each `send_request` call
creates a fresh channel; we name channels by the order of their creation. -/
abbrev ChanId := Nat

/-- `struct KeystoreRequest` of the source (proxy.rs lines 37–40): an operation
paired with the sending half of its private one-shot response channel. -/
structure KeystoreRequest where
  sender : ChanId
  method : RequestMethod
deriving DecidableEq

/-! ## The bounded mpsc channel

The source creates the request queue with
`futures::channel::mpsc::channel::<KeystoreRequest>(CHANNEL_SIZE)`.
Per the documented semantics of that channel, the capacity available for
buffered messages equals `buffer + num_senders`: every `Sender` clone owns one
guaranteed slot, and a `start_send` performed through a freshly cloned,
never-parked sender pushes its message unconditionally — it fails only when
the `Receiver` has been dropped (`Disconnected`), never with `Full`.
A sender only becomes parked (and able to observe `Full`) after it has itself
pushed a message past the buffer size, which a fresh clone has never done.
`KeystoreProxy::send_request` (proxy.rs line 77) clones the sender anew for
every request, so every proxy enqueue goes through a fresh clone. -/

/-- `CHANNEL_SIZE` of the source (proxy.rs line 29). -/
def CHANNEL_SIZE : Nat := 128

/-- State of the bounded request channel shared by proxy and receiver. -/
structure MpscState where
  /-- Messages buffered, oldest first (FIFO). -/
  buf : List KeystoreRequest
  /-- All `Sender` clones have been dropped: once drained, `poll_next` yields
  `None`. -/
  sendersClosed : Bool
  /-- The `Receiver` side has been dropped: sends fail with `Disconnected`. -/
  receiverDropped : Bool
deriving DecidableEq

/-- Error results of `Sender::start_send`. -/
inductive SendError
  | full
  | disconnected
deriving DecidableEq

/-- `start_send` through a freshly cloned sender (the only way the proxy ever
sends): the fresh clone is never parked, so the push succeeds whenever the
receiving side still exists, regardless of how many messages are buffered. -/
def startSendFreshClone (ch : MpscState) (req : KeystoreRequest) :
    MpscState × Option SendError :=
  if ch.receiverDropped then (ch, some .disconnected)
  else ({ ch with buf := ch.buf ++ [req] }, none)

/-- `Receiver::poll_next` on the request channel: `none` stands for
`Poll::Pending`, `some none` for `Poll::Ready(None)` (channel closed and
drained), `some (some r)` for `Poll::Ready(Some(r))`. -/
def MpscState.pollNext (ch : MpscState) :
    Option (Option KeystoreRequest) × MpscState :=
  match ch.buf with
  | r :: rest => (some (some r), { ch with buf := rest })
  | [] => if ch.sendersClosed then (some none, ch) else (none, ch)

/-! ## The proxy side -/

/-- State owned by `KeystoreProxy` together with the fresh-channel supply:
the shared mpsc channel it sends into, and the name of the next one-shot
channel to be created. -/
structure ProxyState where
  channel : MpscState
  nextOneshot : ChanId
deriving DecidableEq

namespace KeystoreProxy

/-- `KeystoreProxy::send_request` (proxy.rs lines 70–81): create a fresh
one-shot channel, wrap the operation and the sending half into a
`KeystoreRequest`, clone the mpsc sender, `start_send` the request —
discarding the result, exactly as the source does — and return the receiving
half of the one-shot channel. -/
def send_request (st : ProxyState) (request : RequestMethod) :
    ProxyState × ChanId :=
  let request_receiver := st.nextOneshot
  let req : KeystoreRequest := { sender := request_receiver, method := request }
  let sent := startSendFreshClone st.channel req
  ({ channel := sent.1, nextOneshot := request_receiver + 1 }, request_receiver)

/-- `KeystoreProxy::sign_with` (proxy.rs lines 83–90). -/
def sign_with (st : ProxyState) (id : KeyTypeId) (key : CryptoTypePublicPair)
    (msg : Bytes) : ProxyState × ChanId :=
  send_request st (RequestMethod.SignWith id key msg)

/-- `KeystoreProxy::has_keys` (proxy.rs lines 92–97). -/
def has_keys (st : ProxyState) (public_keys : List (Bytes × KeyTypeId)) :
    ProxyState × ChanId :=
  send_request st (RequestMethod.HasKeys public_keys)

/-- `KeystoreProxy::insert_unknown` (proxy.rs lines 99–110). -/
def insert_unknown (st : ProxyState) (key_type : KeyTypeId) (suri : String)
    (public : Bytes) : ProxyState × ChanId :=
  send_request st (RequestMethod.InsertUnknown key_type suri public)

end KeystoreProxy

/-! ## The store and the receiver side -/

/-- Interface of the external `BareCryptoStore` collaborator, as consumed by the
receiver: the three operations the dispatched futures invoke.  Their behaviour
is opaque to the proxy code, so they are parameters of the model. -/
structure BareCryptoStore where
  sign_with : KeyTypeId → CryptoTypePublicPair → Bytes → Except BareCryptoStoreError Bytes
  has_keys : List (Bytes × KeyTypeId) → Bool
  insert_unknown : KeyTypeId → String → Bytes → Except Unit Unit

/-- `enum PendingFuture` of the source (proxy.rs lines 48–52): one boxed future
per operation kind.  Each variant records the store operation the async block
invokes together with its captured arguments, plus `delay`, the number of
additional polls the asynchronous store call takes before producing its result
(scheduler- and store-dependent, fixed when the future is created). -/
inductive PendingFuture
  | SignWith (delay : Nat) (id : KeyTypeId) (key : CryptoTypePublicPair) (msg : Bytes)
  | HasKeys (delay : Nat) (keys : List (Bytes × KeyTypeId))
  | InsertUnknown (delay : Nat) (keyType : KeyTypeId) (suri : String) (pubkey : Bytes)
deriving DecidableEq

/-- Read-class or write-class lease on the shared store. -/
inductive Lease
  | read
  | write
deriving DecidableEq

/-- Lease class the async block of a pending future acquires on the store:
the `SignWith` and `HasKeys` blocks call `keystore.read()` (proxy.rs lines 133
and 143), the `InsertUnknown` block calls `keystore.write()` (line 153). -/
def PendingFuture.lease : PendingFuture → Lease
  | .SignWith .. => .read
  | .HasKeys .. => .read
  | .InsertUnknown .. => .write

/-- One poll of a pending future: `inl` is `Poll::Pending` (the remaining
future), `inr` is `Poll::Ready` with the response the future evaluates to —
the matching store operation applied to the captured arguments, wrapped in the
matching `KeystoreResponse` variant. -/
def PendingFuture.pollOnce (store : BareCryptoStore) :
    PendingFuture → Sum PendingFuture KeystoreResponse
  | .SignWith 0 id key msg => .inr (.SignWith (store.sign_with id key msg))
  | .SignWith (d + 1) id key msg => .inl (.SignWith d id key msg)
  | .HasKeys 0 keys => .inr (.HasKeys (store.has_keys keys))
  | .HasKeys (d + 1) keys => .inl (.HasKeys d keys)
  | .InsertUnknown 0 kt suri pk => .inr (.InsertUnknown (store.insert_unknown kt suri pk))
  | .InsertUnknown (d + 1) kt suri pk => .inl (.InsertUnknown d kt suri pk)

/-- `struct PendingCall` of the source (proxy.rs lines 54–57): an in-flight
future paired with the sending half of its request's one-shot channel. -/
structure PendingCall where
  future : PendingFuture
  sender : ChanId
deriving DecidableEq

/-- State of `struct KeystoreReceiver` (proxy.rs lines 113–117). -/
structure KeystoreReceiverState where
  receiver : MpscState
  store : BareCryptoStore
  pending : List PendingCall

/-- `Poll` as in Rust's `core::task`. -/
inductive Poll (α : Type)
  | ready (v : α)
  | pending
deriving DecidableEq

namespace KeystoreReceiver

/-- `KeystoreReceiver::process_request` (proxy.rs lines 128–166): match on the
request's operation tag, build the async block that performs the matching
store operation with the request's own arguments, and push it onto
`self.pending` paired with the request's response sender.  `delay` is the
environment's choice of how many polls that store operation will take. -/
def process_request (delay : Nat) (st : KeystoreReceiverState)
    (request : KeystoreRequest) : KeystoreReceiverState :=
  match request.method with
  | .SignWith id key msg =>
      { st with pending := st.pending ++
          [{ future := .SignWith delay id key msg, sender := request.sender }] }
  | .HasKeys keys =>
      { st with pending := st.pending ++
          [{ future := .HasKeys delay keys, sender := request.sender }] }
  | .InsertUnknown key_type suri pubkey =>
      { st with pending := st.pending ++
          [{ future := .InsertUnknown delay key_type suri pubkey, sender := request.sender }] }

/-- Observable outcome of one `KeystoreReceiver::poll_future` call. -/
structure PollFutureResult where
  /-- What the single poll of the inner future produced; the source discards
  this value (`future.as_mut().poll(cx);` with the result unused). -/
  polled : Sum PendingFuture KeystoreResponse
  /-- Send attempts made on the call's one-shot channel during the call; the
  source makes none on any arm. -/
  sends : List KeystoreResponse
  /-- The pending call as retained for later polls; the source takes `pending`
  by value and drops it when the function returns, so nothing is retained. -/
  retained : Option PendingCall

/-- `KeystoreReceiver::poll_future` (proxy.rs lines 168–180): match on the
variant of `pending.future`, poll the boxed future exactly once, discard the
poll's result, send nothing, and drop the `PendingCall` (together with its
one-shot sender) on return. -/
def poll_future (store : BareCryptoStore) (pending : PendingCall) :
    PollFutureResult :=
  match pending.future with
  | .SignWith d id key msg =>
      { polled := (PendingFuture.SignWith d id key msg).pollOnce store,
        sends := [], retained := none }
  | .HasKeys d keys =>
      { polled := (PendingFuture.HasKeys d keys).pollOnce store,
        sends := [], retained := none }
  | .InsertUnknown d kt suri pk =>
      { polled := (PendingFuture.InsertUnknown d kt suri pk).pollOnce store,
        sends := [], retained := none }

/-- `impl Future for KeystoreReceiver`, `fn poll` (proxy.rs lines 183–197).
The loop advancing `self.pending` is commented out in the source, so the only
live code is: poll the request channel (`ready!` returns `Poll::Pending` early
when it is pending), process at most one ready request, and return
`Poll::Pending` — on every path, including `Poll::Ready(None)` (channel closed
and drained), where the `if let Some(...)` match fails and control falls
through to `return Poll::Pending`.  The third component lists the one-shot
send attempts performed during the poll; the source performs none. -/
def poll (delay : Nat) (st : KeystoreReceiverState) :
    KeystoreReceiverState × Poll Unit × List (ChanId × KeystoreResponse) :=
  match st.receiver.pollNext with
  | (none, ch) => ({ st with receiver := ch }, .pending, [])
  | (some none, ch) => ({ st with receiver := ch }, .pending, [])
  | (some (some request), ch) =>
      (process_request delay { st with receiver := ch } request, .pending, [])

end KeystoreReceiver

/-! ## One-shot response channels

The response channels are `futures::channel::oneshot` pairs: at most one value
is ever sent; sending after the receiver is gone is a no-op; dropping the
sender without sending makes the receiver resolve to a cancellation
("disconnected") signal. -/

/-- State of a one-shot channel, seen from its receiving half. -/
inductive OneshotState
  | waiting
  | sent (v : KeystoreResponse)
  | dropped

/-- Final state of a one-shot channel whose sending half performed the given
send attempts (a one-shot sender can succeed at most once, so only the first
attempt counts) and was then dropped. -/
def oneshotFinal (sends : List KeystoreResponse) : OneshotState :=
  match sends with
  | [] => .dropped
  | v :: _ => .sent v

/-- What the caller observes when it awaits the receiving half. -/
inductive RecvResult
  | pending
  | value (v : KeystoreResponse)
  | disconnected

/-- Receiving on a one-shot channel in the given state. -/
def OneshotState.recv : OneshotState → RecvResult
  | .waiting => .pending
  | .sent v => .value v
  | .dropped => .disconnected

/-! ## The reader-writer lock guarding the store

`BareCryptoStorePtr` is a shared pointer to the store behind a reader-writer
lock; the dispatched async blocks access the store through `keystore.read()`
or `keystore.write()`.  The lock is modelled by counting concurrently held
read and write leases: a read lease can be acquired only while no write lease
is held, a write lease only while nothing at all is held, and every lease is
released on the operation's completion. -/

/-- Number of read and write leases on the store held at a given instant. -/
structure RwLockState where
  readers : Nat
  writers : Nat
deriving DecidableEq

/-- Lease acquisition and release events. -/
inductive RwEvent
  | acquire (l : Lease)
  | release (l : Lease)
deriving DecidableEq

/-- One lock transition; `none` when the event is not enabled in this state
(the requester would block, or no matching lease is held). -/
def rwStep (s : RwLockState) : RwEvent → Option RwLockState
  | .acquire .read =>
      if s.writers = 0 then some { s with readers := s.readers + 1 } else none
  | .acquire .write =>
      if s.writers = 0 ∧ s.readers = 0 then some { s with writers := s.writers + 1 }
      else none
  | .release .read =>
      if 0 < s.readers then some { s with readers := s.readers - 1 } else none
  | .release .write =>
      if 0 < s.writers then some { s with writers := s.writers - 1 } else none

/-- Run a sequence of lock events from a state. -/
def rwRun (s : RwLockState) : List RwEvent → Option RwLockState
  | [] => some s
  | e :: es =>
      match rwStep s e with
      | some s' => rwRun s' es
      | none => none

/-- The unlocked state: no lease held. -/
def rwInit : RwLockState := { readers := 0, writers := 0 }

/-! ## Derived descriptions and concrete instances used in the theorems -/

/-- The pending future `KeystoreReceiver.process_request` constructs for a
given request method: the dispatch table of the receiver, stated as a function
so that theorems can refer to it. -/
def dispatchedFuture (delay : Nat) : RequestMethod → PendingFuture
  | .SignWith id key msg => .SignWith delay id key msg
  | .HasKeys keys => .HasKeys delay keys
  | .InsertUnknown kt suri pk => .InsertUnknown delay kt suri pk

/-- The response the store produces for a request method when invoked directly
with that method's own arguments. -/
def responseOf (store : BareCryptoStore) : RequestMethod → KeystoreResponse
  | .SignWith id key msg => .SignWith (store.sign_with id key msg)
  | .HasKeys keys => .HasKeys (store.has_keys keys)
  | .InsertUnknown kt suri pk => .InsertUnknown (store.insert_unknown kt suri pk)

/-- A proxy handle together with the store it is meant to serve.  The Rust
`KeystoreProxy` struct holds only the mpsc sender (proxy.rs lines 59–61) — no
store reference — so the store component is an arbitrary type `σ` that the
proxy methods cannot even mention. -/
structure ProxySystem (σ : Type) where
  proxy : ProxyState
  store : σ

/-- A proxy call to `sign_with` viewed at the system level. -/
def ProxySystem.signWith {σ : Type} (sys : ProxySystem σ) (id : KeyTypeId)
    (key : CryptoTypePublicPair) (msg : Bytes) : ProxySystem σ × ChanId :=
  let r := KeystoreProxy.sign_with sys.proxy id key msg
  ({ sys with proxy := r.1 }, r.2)

/-- A proxy call to `has_keys` viewed at the system level. -/
def ProxySystem.hasKeys {σ : Type} (sys : ProxySystem σ)
    (public_keys : List (Bytes × KeyTypeId)) : ProxySystem σ × ChanId :=
  let r := KeystoreProxy.has_keys sys.proxy public_keys
  ({ sys with proxy := r.1 }, r.2)

/-- A proxy call to `insert_unknown` viewed at the system level. -/
def ProxySystem.insertUnknown {σ : Type} (sys : ProxySystem σ) (key_type : KeyTypeId)
    (suri : String) (public : Bytes) : ProxySystem σ × ChanId :=
  let r := KeystoreProxy.insert_unknown sys.proxy key_type suri public
  ({ sys with proxy := r.1 }, r.2)

/-- Proxy state right after `proxy(store)` (proxy.rs lines 204–207): empty
channel, both sides alive, no one-shot channel created yet. -/
def initialProxy : ProxyState :=
  { channel := { buf := [], sendersClosed := false, receiverDropped := false },
    nextOneshot := 0 }

/-- `n` successive proxy enqueues (`has_keys` calls) with no draining by the
receiver in between. -/
def sendN : Nat → ProxyState → ProxyState
  | 0, st => st
  | n + 1, st => sendN n (KeystoreProxy.has_keys st []).1

/-- A concrete store instance used to evaluate the model at specific inputs. -/
def sampleStore : BareCryptoStore :=
  { sign_with := fun _ _ _ => Except.ok []
    has_keys := fun _ => true
    insert_unknown := fun _ _ _ => Except.ok () }

/-- A concrete request used to evaluate the model at specific inputs. -/
def sampleRequest : KeystoreRequest :=
  { sender := 7, method := RequestMethod.HasKeys [] }

/-- A concrete receiver state with one queued request and no in-flight work. -/
def sampleReceiverState : KeystoreReceiverState :=
  { receiver := { buf := [sampleRequest], sendersClosed := false, receiverDropped := false },
    store := sampleStore,
    pending := [] }

/-! ## Helper lemmas -/

/-- Sending through the proxy while the receiving side is alive appends the
request to the buffer, whatever its length. -/
theorem send_request_open (st : ProxyState) (m : RequestMethod)
    (h : st.channel.receiverDropped = false) :
    (KeystoreProxy.send_request st m).1.channel.buf
        = st.channel.buf ++ [{ sender := st.nextOneshot, method := m }]
      ∧ (KeystoreProxy.send_request st m).1.channel.receiverDropped = false
      ∧ (KeystoreProxy.send_request st m).1.channel.sendersClosed
          = st.channel.sendersClosed := by
  simp [KeystoreProxy.send_request, startSendFreshClone, h]

/-- `n` proxy enqueues with a live receiver grow the buffer by `n`. -/
theorem sendN_length (n : Nat) (st : ProxyState)
    (h : st.channel.receiverDropped = false) :
    (sendN n st).channel.buf.length = st.channel.buf.length + n
      ∧ (sendN n st).channel.receiverDropped = false := by
  induction n generalizing st with
  | zero => exact ⟨rfl, h⟩
  | succ n ih =>
    obtain ⟨h1, h2, _⟩ := send_request_open st (RequestMethod.HasKeys []) h
    have hx := ih (KeystoreProxy.has_keys st []).1 h2
    refine ⟨?_, hx.2⟩
    have hlen : (KeystoreProxy.has_keys st []).1.channel.buf.length
        = st.channel.buf.length + 1 := by
      rw [KeystoreProxy.has_keys, h1]; simp
    simp only [sendN]
    rw [hx.1, hlen]
    omega

/-- One lock transition preserves the reader/writer invariant. -/
theorem rwStep_inv (s s' : RwLockState) (e : RwEvent)
    (h₀ : s.writers ≤ 1 ∧ (0 < s.writers → s.readers = 0))
    (h : rwStep s e = some s') :
    s'.writers ≤ 1 ∧ (0 < s'.writers → s'.readers = 0) := by
  obtain ⟨r, w⟩ := s
  obtain ⟨r', w'⟩ := s'
  obtain ⟨h1, h2⟩ := h₀
  simp only at h1 h2
  cases e with
  | acquire l =>
    cases l <;> (simp only [rwStep] at h; split at h) <;> simp_all
    all_goals omega
  | release l =>
    cases l <;> (simp only [rwStep] at h; split at h) <;> simp_all
    all_goals omega

/-- Any run of lock events from an invariant state ends in an invariant
state. -/
theorem rwRun_inv (evs : List RwEvent) (s₀ s : RwLockState)
    (h₀ : s₀.writers ≤ 1 ∧ (0 < s₀.writers → s₀.readers = 0))
    (h : rwRun s₀ evs = some s) :
    s.writers ≤ 1 ∧ (0 < s.writers → s.readers = 0) := by
  induction evs generalizing s₀ with
  | nil =>
    simp only [rwRun, Option.some.injEq] at h
    exact h ▸ h₀
  | cons e es ih =>
    simp only [rwRun] at h
    cases he : rwStep s₀ e with
    | none => rw [he] at h; exact absurd h (by simp)
    | some s' => rw [he] at h; exact ih s' (rwStep_inv s₀ s' e h₀ he) h

/-- `n` concurrent read acquisitions from an all-readers state succeed. -/
theorem rwRun_replicate_read (n k : Nat) :
    rwRun { readers := k, writers := 0 }
        (List.replicate n (RwEvent.acquire Lease.read))
      = some { readers := k + n, writers := 0 } := by
  induction n generalizing k with
  | zero => rfl
  | succ n ih =>
    rw [List.replicate_succ]
    simp only [rwRun, rwStep, if_pos rfl]
    rw [(by omega : k + (n + 1) = (k + 1) + n)]
    exact ih (k + 1)

/-- A poll with no ready request leaves the receiver state unchanged. -/
theorem poll_no_request (delay : Nat) (st : KeystoreReceiverState)
    (h : st.receiver.buf = []) :
    KeystoreReceiver.poll delay st = (st, Poll.pending, []) := by
  obtain ⟨⟨buf, sc, rd⟩, sto, pend⟩ := st
  simp only at h
  subst h
  cases sc <;> rfl

/-- A poll with a ready request hands exactly that request to
`process_request` after removing it from the buffer. -/
theorem poll_cons (delay : Nat) (st : KeystoreReceiverState)
    (req : KeystoreRequest) (rest : List KeystoreRequest)
    (h : st.receiver.buf = req :: rest) :
    KeystoreReceiver.poll delay st
      = (KeystoreReceiver.process_request delay
          { st with receiver := { st.receiver with buf := rest } } req,
         Poll.pending, []) := by
  obtain ⟨⟨buf, sc, rd⟩, sto, pend⟩ := st
  simp only at h
  subst h
  rfl

/-- `process_request` appends exactly one pending call — the dispatch table
applied to the request's method, paired with the request's sender — and leaves
the channel untouched. -/
theorem process_request_pending (delay : Nat) (st : KeystoreReceiverState)
    (req : KeystoreRequest) :
    (KeystoreReceiver.process_request delay st req).pending
        = st.pending ++
            [{ future := dispatchedFuture delay req.method, sender := req.sender }]
      ∧ (KeystoreReceiver.process_request delay st req).receiver = st.receiver := by
  obtain ⟨s, m⟩ := req
  cases m <;> exact ⟨rfl, rfl⟩

/-! ## Claim theorems -/

/-- Claim C1: the spec requires a queue-at-capacity enqueue failure to be
surfaced to the caller; the code does not do this.  For every proxy call,
`send_request` returns nothing but the fresh one-shot receiver — its result
type carries no error information, so no enqueue outcome can reach the
caller — and the buffer either grows past any bound (live receiver: the fresh
sender clone's guaranteed slot makes `start_send` succeed even at capacity,
so no queue-full failure is ever produced) or the request is silently dropped
(receiver gone: `start_send`'s error is discarded, line 78 of the source). -/
theorem c1_queue_full_never_surfaced (st : ProxyState) (m : RequestMethod) :
    (KeystoreProxy.send_request st m).2 = st.nextOneshot
      ∧ (KeystoreProxy.send_request st m).1.nextOneshot = st.nextOneshot + 1
      ∧ (KeystoreProxy.send_request st m).1.channel.buf
          = (if st.channel.receiverDropped then st.channel.buf
             else st.channel.buf ++ [{ sender := st.nextOneshot, method := m }]) := by
  refine ⟨rfl, rfl, ?_⟩
  by_cases h : st.channel.receiverDropped <;>
    simp [KeystoreProxy.send_request, startSendFreshClone, h]

/-- Claim C2: the spec requires every poll to advance every in-flight
operation and deliver completed responses; in the code the advancement loop
is commented out (proxy.rs lines 187–189), so a poll leaves every previously
in-flight operation exactly where it was — the old pending list survives as an
unchanged initial segment — and performs no response send at all, even when a
pending future is already complete. -/
theorem c2_inflight_never_advanced (delay : Nat) (st : KeystoreReceiverState) :
    ((KeystoreReceiver.poll delay st).1.pending).take st.pending.length = st.pending
      ∧ (KeystoreReceiver.poll delay st).2.2 = [] := by
  cases hb : st.receiver.buf with
  | nil =>
    rw [poll_no_request delay st hb]
    exact ⟨List.take_length _, rfl⟩
  | cons req rest =>
    rw [poll_cons delay st req rest hb]
    refine ⟨?_, rfl⟩
    rw [(process_request_pending delay
          { st with receiver := { st.receiver with buf := rest } } req).1]
    exact List.take_left _ _

/-- Claim C3: the spec requires exactly one response attempt per dispatched
request; the code makes zero.  No poll of the receiver performs any one-shot
send, and `poll_future` — the only function that ever touches a dispatched
call again — sends nothing either. -/
theorem c3_zero_response_attempts (delay : Nat) (st : KeystoreReceiverState)
    (store : BareCryptoStore) (pc : PendingCall) :
    (KeystoreReceiver.poll delay st).2.2 = []
      ∧ (KeystoreReceiver.poll_future store pc).sends = [] := by
  constructor
  · cases hb : st.receiver.buf with
    | nil => rw [poll_no_request delay st hb]
    | cons req rest => rw [poll_cons delay st req rest hb]
  · obtain ⟨f, s⟩ := pc
    cases f <;> rfl

/-- Claim C4: the spec says the receiver's future completes once the queue's
sending side is dropped and in-flight work is drained; the code's `poll`
returns `Poll::Pending` on every path — including `Poll::Ready(None)` from a
closed and drained queue, where the `if let Some(..)` match fails and control
falls through to `return Poll::Pending` — so the future never completes. -/
theorem c4_never_ready (delay : Nat) (st : KeystoreReceiverState) :
    (KeystoreReceiver.poll delay st).2.1 = Poll.pending := by
  cases hb : st.receiver.buf with
  | nil => rw [poll_no_request delay st hb]
  | cons req rest => rw [poll_cons delay st req rest hb]

/-- Claim C5: when the queue has a ready request, a poll pulls exactly that
one request, dispatches it by operation tag to the matching store operation
with the request's own arguments, and appends the resulting task, paired with
the request's response channel, to the in-flight list: the dispatched future
at zero remaining delay evaluates to the matching store operation applied to
exactly the request's arguments, and each earlier poll merely counts the delay
down. -/
theorem c5_single_dispatch (delay : Nat) (st : KeystoreReceiverState)
    (req : KeystoreRequest) (rest : List KeystoreRequest)
    (h : st.receiver.buf = req :: rest) :
    (KeystoreReceiver.poll delay st).1.receiver.buf = rest
      ∧ (KeystoreReceiver.poll delay st).1.pending
          = st.pending ++
              [{ future := dispatchedFuture delay req.method, sender := req.sender }]
      ∧ (∀ store : BareCryptoStore,
          (dispatchedFuture 0 req.method).pollOnce store
            = Sum.inr (responseOf store req.method))
      ∧ (∀ store : BareCryptoStore, ∀ d : Nat,
          (dispatchedFuture (d + 1) req.method).pollOnce store
            = Sum.inl (dispatchedFuture d req.method)) := by
  have hp := process_request_pending delay
    { st with receiver := { st.receiver with buf := rest } } req
  refine ⟨?_, ?_, ?_, ?_⟩
  · rw [poll_cons delay st req rest h]
    exact congrArg MpscState.buf hp.2
  · rw [poll_cons delay st req rest h]
    exact hp.1
  · intro store
    cases hm : req.method <;>
      simp [dispatchedFuture, PendingFuture.pollOnce, responseOf]
  · intro store d
    cases hm : req.method <;>
      simp [dispatchedFuture, PendingFuture.pollOnce]

/-- Witness for C5 at a concrete input: a receiver with one queued `HasKeys`
request and no in-flight work pulls it and tracks exactly the matching
pending call. -/
theorem c5_single_dispatch_witness :
    (KeystoreReceiver.poll 3 sampleReceiverState).1.receiver.buf = []
      ∧ (KeystoreReceiver.poll 3 sampleReceiverState).1.pending
          = [{ future := dispatchedFuture 3 sampleRequest.method,
               sender := sampleRequest.sender }] := by
  have h := c5_single_dispatch 3 sampleReceiverState sampleRequest [] rfl
  exact ⟨h.1, by simpa using h.2.1⟩

/-- Claim C6: the async block dispatched for `SignWith` and `HasKeys` acquires
a read lease (`keystore.read()`, proxy.rs lines 133 and 143), the one for
`InsertUnknown` a write lease (`keystore.write()`, line 153); under the
reader-writer lock guarding the store, every reachable lock state holds at
most one write lease, no read lease concurrently with a write lease, and
arbitrarily many concurrent read leases are reachable. -/
theorem c6_lease_discipline :
    (∀ delay id key msg,
        (dispatchedFuture delay (RequestMethod.SignWith id key msg)).lease
          = Lease.read)
      ∧ (∀ delay keys,
          (dispatchedFuture delay (RequestMethod.HasKeys keys)).lease = Lease.read)
      ∧ (∀ delay kt suri pk,
          (dispatchedFuture delay (RequestMethod.InsertUnknown kt suri pk)).lease
            = Lease.write)
      ∧ (∀ evs s, rwRun rwInit evs = some s →
          s.writers ≤ 1 ∧ (0 < s.writers → s.readers = 0))
      ∧ (∀ n, rwRun rwInit (List.replicate n (RwEvent.acquire Lease.read))
          = some { readers := n, writers := 0 }) := by
  refine ⟨fun _ _ _ _ => rfl, fun _ _ => rfl, fun _ _ _ _ => rfl, ?_, ?_⟩
  · intro evs s h
    exact rwRun_inv evs rwInit s ⟨Nat.zero_le 1, fun hw => absurd hw (by simp [rwInit])⟩ h
  · intro n
    simpa using rwRun_replicate_read n 0

/-- Witness for C6 at a concrete input: acquiring one write lease from the
unlocked state reaches a state that satisfies the exclusivity invariant. -/
theorem c6_lease_discipline_witness :
    rwRun rwInit [RwEvent.acquire Lease.write]
        = some { readers := 0, writers := 1 }
      ∧ ({ readers := 0, writers := 1 } : RwLockState).writers ≤ 1
      ∧ (0 < ({ readers := 0, writers := 1 } : RwLockState).writers →
          ({ readers := 0, writers := 1 } : RwLockState).readers = 0) := by
  have h := c6_lease_discipline.2.2.2.1 [RwEvent.acquire Lease.write]
    { readers := 0, writers := 1 } (by decide)
  exact ⟨by decide, h.1, h.2⟩

/-- Claim C7: the spec says the queue holds at most 128 entries and a 129th
enqueue fails with queue-full; in the code every proxy enqueue goes through a
freshly cloned sender with its own guaranteed slot, so after 128 unconsumed
requests the 129th proxy enqueue still succeeds and the buffer grows to 129,
past `CHANNEL_SIZE`. -/
theorem c7_capacity_not_enforced :
    (sendN CHANNEL_SIZE initialProxy).channel.buf.length = CHANNEL_SIZE
      ∧ (KeystoreProxy.has_keys (sendN CHANNEL_SIZE initialProxy) []).1.channel.buf.length
          = CHANNEL_SIZE + 1 := by
  have h := sendN_length CHANNEL_SIZE initialProxy rfl
  have h0 : initialProxy.channel.buf.length = 0 := rfl
  have h1 : (sendN CHANNEL_SIZE initialProxy).channel.buf.length = CHANNEL_SIZE := by
    rw [h.1, h0]; omega
  refine ⟨h1, ?_⟩
  have h2 := send_request_open (sendN CHANNEL_SIZE initialProxy)
    (RequestMethod.HasKeys []) h.2
  show (KeystoreProxy.send_request (sendN CHANNEL_SIZE initialProxy)
      (RequestMethod.HasKeys [])).1.channel.buf.length = CHANNEL_SIZE + 1
  rw [h2.1]
  simp [h1]

/-- Claim C8: a proxy call has no effect on the store — the Rust proxy holds
only the queue sender, so at system level the store component (of arbitrary
type) is untouched by all three methods — and each call returns the receiving
half of the freshly created one-shot channel immediately, whatever the state
of the queue (full, open, or with the receiver gone), consuming exactly one
fresh channel. -/
theorem c8_no_store_effect {σ : Type} (sys : ProxySystem σ)
    (id : KeyTypeId) (key : CryptoTypePublicPair) (msg : Bytes)
    (keys : List (Bytes × KeyTypeId)) (kt : KeyTypeId) (suri : String)
    (pk : Bytes) :
    ((sys.signWith id key msg).1.store = sys.store
        ∧ (sys.signWith id key msg).2 = sys.proxy.nextOneshot
        ∧ (sys.signWith id key msg).1.proxy.nextOneshot = sys.proxy.nextOneshot + 1)
      ∧ ((sys.hasKeys keys).1.store = sys.store
        ∧ (sys.hasKeys keys).2 = sys.proxy.nextOneshot
        ∧ (sys.hasKeys keys).1.proxy.nextOneshot = sys.proxy.nextOneshot + 1)
      ∧ ((sys.insertUnknown kt suri pk).1.store = sys.store
        ∧ (sys.insertUnknown kt suri pk).2 = sys.proxy.nextOneshot
        ∧ (sys.insertUnknown kt suri pk).1.proxy.nextOneshot
            = sys.proxy.nextOneshot + 1) :=
  ⟨⟨rfl, rfl, rfl⟩, ⟨rfl, rfl, rfl⟩, ⟨rfl, rfl, rfl⟩⟩

/-- Claim C9: `poll_future` takes the pending call by value, polls its inner
future exactly once (the recorded outcome is precisely one `pollOnce` step),
never sends a response, retains nothing for later polls, and therefore drops
the one-shot sender unsent, leaving the caller's handle to resolve to the
disconnected signal. -/
theorem c9_poll_future_drops_call (store : BareCryptoStore) (pc : PendingCall) :
    (KeystoreReceiver.poll_future store pc).polled = pc.future.pollOnce store
      ∧ (KeystoreReceiver.poll_future store pc).sends = []
      ∧ (KeystoreReceiver.poll_future store pc).retained = none
      ∧ oneshotFinal (KeystoreReceiver.poll_future store pc).sends
          = OneshotState.dropped
      ∧ (oneshotFinal (KeystoreReceiver.poll_future store pc).sends).recv
          = RecvResult.disconnected := by
  obtain ⟨f, s⟩ := pc
  cases f <;> exact ⟨rfl, rfl, rfl, rfl, rfl⟩

/-- Claim C10: every proxy call clones the queue sender before enqueueing and
discards the enqueue result: with the receiver alive the enqueue always
succeeds — one more message buffered no matter how many already are, so after
`CHANNEL_SIZE + 1` proxy calls the buffer holds more than the nominal
capacity — and the call's return value is only the fresh one-shot id, so no
proxy code path observes or propagates an enqueue failure. -/
theorem c10_guaranteed_slot_unbounded (st : ProxyState) (m : RequestMethod)
    (h : st.channel.receiverDropped = false) :
    (KeystoreProxy.send_request st m).1.channel.buf.length
        = st.channel.buf.length + 1
      ∧ (KeystoreProxy.send_request st m).2 = st.nextOneshot
      ∧ (sendN (CHANNEL_SIZE + 1) initialProxy).channel.buf.length
          = CHANNEL_SIZE + 1 := by
  have hs := send_request_open st m h
  refine ⟨by rw [hs.1]; simp, rfl, ?_⟩
  have h0 : initialProxy.channel.buf.length = 0 := rfl
  have hn := (sendN_length (CHANNEL_SIZE + 1) initialProxy rfl).1
  rw [hn, h0]
  omega

/-- Witness for C10 at a concrete input: the very first proxy enqueue on a
fresh channel buffers one message and returns one-shot channel 0. -/
theorem c10_guaranteed_slot_unbounded_witness :
    (KeystoreProxy.send_request initialProxy (RequestMethod.HasKeys [])).1.channel.buf.length
        = initialProxy.channel.buf.length + 1
      ∧ (KeystoreProxy.send_request initialProxy (RequestMethod.HasKeys [])).2
          = initialProxy.nextOneshot :=
  ⟨(c10_guaranteed_slot_unbounded initialProxy (RequestMethod.HasKeys []) rfl).1,
   (c10_guaranteed_slot_unbounded initialProxy (RequestMethod.HasKeys []) rfl).2.1⟩

end KeystoreProxyModel
